import Mathlib

/-!
# Shallow embedding of the `staking-contract-rs` ledger

This file embeds the staking-pool contract (`src/lib.rs`, `src/account.rs`,
`src/internal.rs`, `src/core_impl.rs`) in Lean 4 and proves the testable
properties of its specification against the embedded code.

Modelling conventions:
* `u128`/`u64`/`u32` machine integers become `Nat` with explicit bound checks
  where the Rust code can overflow.  Per the spec (§7, "Arithmetic
  overflow/underflow … must abort the invocation atomically"), checked
  arithmetic aborts: an aborted invocation is modelled as `none`, and an
  `Option`-returning operation that yields `none` leaves the pre-state
  untouched (host transactions are atomic).
* The 256-bit intermediate type `U256` of the reward computation is modelled
  by `Nat` arithmetic guarded by the same panics the `uint` crate performs
  (multiplication overflow past `2^256`, division by zero, and `as_u128`
  overflow past `2^128`).
* The NEAR host environment (`env::block_index()`, `env::epoch_height()`,
  `env::block_timestamp()`, `env::predecessor_account_id()`,
  `env::promise_result(0)`) is passed in explicitly as arguments.
* `LookupMap<AccountId, UpgradableAccount>` becomes an association list.
  `UpgradableAccount` is a two-constructor wrapper whose both arms carry the
  same `Account` and whose conversions are total and inverse to each other
  (`account.rs`), so the embedding stores `Account` directly.
* Account identifiers become `Nat`.
-/

namespace StakingSpec

/-- `u128::MAX + 1`: the bound used by checked 128-bit arithmetic. -/
def U128_LIMIT : Nat := 2 ^ 128

/-- `2^256`: bound of the `U256` intermediate type from `construct_uint!`. -/
def U256_LIMIT : Nat := 2 ^ 256

/-- `pub const NUM_EPOCHS_TO_UNLOCK: EpochHeight = 1;` (`lib.rs`). -/
def NUM_EPOCHS_TO_UNLOCK : Nat := 1

/-- Checked `u128` addition: Rust `a + b` with overflow checks aborts the
invocation when the sum does not fit in 128 bits. -/
def checkedAdd128 (a b : Nat) : Option Nat :=
  if a + b < U128_LIMIT then some (a + b) else none

/-- Checked unsigned subtraction: Rust `a - b` on an unsigned type aborts the
invocation when `b > a` (arithmetic underflow). -/
def checkedSub (a b : Nat) : Option Nat :=
  if b ≤ a then some (a - b) else none

/-- `Config` (`lib.rs`): reward-rate parameters. -/
structure Config where
  reward_numerator : Nat
  reward_denumerator : Nat
  total_apr : Nat
deriving DecidableEq, Repr

/-- `Config::default()` (`lib.rs`): numerator 715, denominator 100000000000. -/
def Config.default : Config :=
  { reward_numerator := 715, reward_denumerator := 100000000000, total_apr := 15 }

/-- `Account` (`account.rs`). -/
structure Account where
  stake_balance : Nat
  pre_stake_balance : Nat
  pre_reward : Nat
  last_block_balance_change : Nat
  unstake_balance : Nat
  unstake_start_timestamp : Nat
  unstake_available_epoch_height : Nat
deriving DecidableEq, Repr

/-- `StakingContract` (`lib.rs`).  The `LookupMap` of accounts is an
association list keyed by account id. -/
structure StakingContract where
  owner_id : Nat
  ft_contract_id : Nat
  config : Config
  total_stake_balance : Nat
  total_paid_reward_balance : Nat
  total_staker : Nat
  pre_reward : Nat
  last_block_balance_change : Nat
  accounts : List (Nat × Account)
  paused : Bool
  paused_in_block : Nat
deriving DecidableEq, Repr

/-- `LookupMap::get`: first binding of the key in the association list. -/
def lookupAcc : List (Nat × Account) → Nat → Option Account
  | [], _ => none
  | (k', a) :: rest, k => if k' = k then some a else lookupAcc rest k

/-- `LookupMap::insert`: replace the first binding of the key, or append. -/
def insertAcc : List (Nat × Account) → Nat → Account → List (Nat × Account)
  | [], k, a => [(k, a)]
  | (k', a') :: rest, k, a =>
      if k' = k then (k, a) :: rest else (k', a') :: insertAcc rest k a

/-- Sum of `stake_balance` over all stored accounts. -/
def sumStake (l : List (Nat × Account)) : Nat :=
  l.foldr (fun p acc => p.2.stake_balance + acc) 0

/-- Contribution of one account to the staker count: 1 iff its stake is
nonzero. -/
def posBit (a : Account) : Nat :=
  if a.stake_balance = 0 then 0 else 1

/-- Number of stored accounts whose `stake_balance` is nonzero. -/
def countPos (l : List (Nat × Account)) : Nat :=
  l.foldr (fun p acc => posBit p.2 + acc) 0

/-- `StakingContract::new` (`lib.rs`). -/
def StakingContract.new (owner_id ft_contract_id : Nat) (config : Config)
    (blockIndex : Nat) : StakingContract :=
  { owner_id := owner_id
    ft_contract_id := ft_contract_id
    config := config
    total_stake_balance := 0
    total_paid_reward_balance := 0
    total_staker := 0
    pre_reward := 0
    last_block_balance_change := blockIndex
    accounts := []
    paused := false
    paused_in_block := 0 }

/-- The `U256` multiply-before-divide of `internal.rs` lines 107/118:
`(U256::from(b) * U256::from(num) * U256::from(diff)) / U256::from(den)`
followed by `.as_u128()`.  The `uint` crate panics on multiplication
overflow past 2^256, on division by zero, and in `as_u128` when the
quotient exceeds `u128::MAX`; each panic aborts the invocation (`none`). -/
def accrueRaw (balance numerator denumerator diff : Nat) : Option Nat :=
  if U256_LIMIT ≤ balance * numerator then none
  else if U256_LIMIT ≤ balance * numerator * diff then none
  else if denumerator = 0 then none
  else if U128_LIMIT ≤ balance * numerator * diff / denumerator then none
  else some (balance * numerator * diff / denumerator)

/-- `internal_calculate_account_reward` (`internal.rs` 100–109).  Note that
the source reads `self.total_stake_balance`, not `account.stake_balance`,
in the product. -/
def internal_calculate_account_reward (st : StakingContract) (blockIndex : Nat)
    (account : Account) : Option Nat :=
  (checkedSub (if st.paused then st.paused_in_block else blockIndex)
      account.last_block_balance_change).bind fun diff_block =>
    accrueRaw st.total_stake_balance st.config.reward_numerator
      st.config.reward_denumerator diff_block

/-- `internal_calculate_global_reward` (`internal.rs` 111–120). -/
def internal_calculate_global_reward (st : StakingContract) (blockIndex : Nat) :
    Option Nat :=
  (checkedSub (if st.paused then st.paused_in_block else blockIndex)
      st.last_block_balance_change).bind fun diff_block =>
    accrueRaw st.total_stake_balance st.config.reward_numerator
      st.config.reward_denumerator diff_block

/-- `get_account_reward` (`enumeration.rs`): `pre_reward + new_reward`. -/
def get_account_reward (st : StakingContract) (blockIndex account_id : Nat) :
    Option Nat :=
  (lookupAcc st.accounts account_id).bind fun account =>
    (internal_calculate_account_reward st blockIndex account).bind fun r =>
      checkedAdd128 account.pre_reward r

/-- `internal_create_account` (`internal.rs` 122–136). -/
def internal_create_account (st : StakingContract) (blockIndex account_id : Nat) :
    StakingContract :=
  { st with
    accounts := insertAcc st.accounts account_id
      { stake_balance := 0
        pre_stake_balance := 0
        pre_reward := 0
        last_block_balance_change := blockIndex
        unstake_balance := 0
        unstake_start_timestamp := 0
        unstake_available_epoch_height := 0 } }

/-- The account-creating path of `storage_deposit` (`lib.rs` 100–114): an
existing account is left unchanged (the attached deposit is refunded),
otherwise a fresh zero account is created. -/
def storage_deposit (st : StakingContract) (blockIndex account_id : Nat) :
    StakingContract :=
  match lookupAcc st.accounts account_id with
  | some _ => st
  | none => internal_create_account st blockIndex account_id

/-- `internal_deposit_and_stake` (`internal.rs` 11–43).  `pred` is
`env::predecessor_account_id()`, `blockIndex` is `env::block_index()`. -/
def internal_deposit_and_stake (st : StakingContract) (pred blockIndex : Nat)
    (account_id amount : Nat) : Option StakingContract :=
  (lookupAcc st.accounts account_id).bind fun account =>
  if st.paused then none
  else if pred = st.ft_contract_id then
    (if account.stake_balance = 0 then checkedAdd128 st.total_staker 1
     else some st.total_staker).bind fun staker1 =>
    (internal_calculate_account_reward st blockIndex account).bind fun new_reward =>
    (checkedAdd128 account.pre_reward new_reward).bind fun preReward1 =>
    (checkedAdd128 account.stake_balance amount).bind fun stake1 =>
    let st1 : StakingContract :=
      { st with
        total_staker := staker1
        accounts := insertAcc st.accounts account_id
          { account with
            pre_stake_balance := account.stake_balance
            pre_reward := preReward1
            stake_balance := stake1
            last_block_balance_change := blockIndex } }
    (internal_calculate_global_reward st1 blockIndex).bind fun new_contract_reward =>
    (checkedAdd128 st1.total_stake_balance amount).bind fun total1 =>
    (checkedAdd128 st1.pre_reward new_contract_reward).bind fun poolPre1 =>
    some { st1 with
           total_stake_balance := total1
           pre_reward := poolPre1
           last_block_balance_change := blockIndex }
  else none

/-- `internal_unstake` (`internal.rs` 45–76). -/
def internal_unstake (st : StakingContract)
    (blockIndex epochHeight timestamp : Nat) (account_id amount : Nat) :
    Option StakingContract :=
  (lookupAcc st.accounts account_id).bind fun account =>
  if amount ≤ account.stake_balance then
    (internal_calculate_account_reward st blockIndex account).bind fun new_reward =>
    (checkedAdd128 account.pre_reward new_reward).bind fun preReward1 =>
    (checkedAdd128 account.unstake_balance amount).bind fun unstakeBal1 =>
    (checkedAdd128 epochHeight NUM_EPOCHS_TO_UNLOCK).bind fun avail1 =>
    let account1 : Account :=
      { stake_balance := account.stake_balance - amount
        pre_stake_balance := account.stake_balance
        pre_reward := preReward1
        last_block_balance_change := blockIndex
        unstake_balance := unstakeBal1
        unstake_start_timestamp := timestamp
        unstake_available_epoch_height := avail1 }
    (if account1.stake_balance = 0 then checkedSub st.total_staker 1
     else some st.total_staker).bind fun staker1 =>
    let st1 : StakingContract :=
      { st with
        total_staker := staker1
        accounts := insertAcc st.accounts account_id account1 }
    (internal_calculate_global_reward st1 blockIndex).bind fun new_contract_reward =>
    (checkedSub st1.total_stake_balance amount).bind fun total1 =>
    (checkedAdd128 st1.pre_reward new_contract_reward).bind fun poolPre1 =>
    some { st1 with
           total_stake_balance := total1
           pre_reward := poolPre1
           last_block_balance_change := blockIndex }
  else none

/-- `internal_withdraw` (`internal.rs` 78–98): asserts a positive cooldown
balance and an elapsed cooldown epoch, persists the account with the three
cooldown fields cleared, and returns the full prior account as the rollback
snapshot. -/
def internal_withdraw (st : StakingContract) (epochHeight account_id : Nat) :
    Option (StakingContract × Account) :=
  (lookupAcc st.accounts account_id).bind fun account =>
  if 0 < account.unstake_balance then
    if account.unstake_available_epoch_height ≤ epochHeight then
      let new_account : Account :=
        { pre_reward := account.pre_reward
          stake_balance := account.stake_balance
          pre_stake_balance := account.pre_stake_balance
          last_block_balance_change := account.last_block_balance_change
          unstake_balance := 0
          unstake_start_timestamp := 0
          unstake_available_epoch_height := 0 }
      some ({ st with accounts := insertAcc st.accounts account_id new_account },
            account)
    else none
  else none

/-- `ft_on_transfer` (`core_impl.rs` 27–32): runs the deposit and returns the
unused amount `U128(0)` as a plain value (no external call is dispatched). -/
def ft_on_transfer (st : StakingContract) (pred blockIndex : Nat)
    (sender_id amount : Nat) : Option (StakingContract × Nat) :=
  (internal_deposit_and_stake st pred blockIndex sender_id amount).map
    fun st1 => (st1, 0)

/-- `withdraw` (`core_impl.rs` 47–69): requires exactly one attached yocto,
runs `internal_withdraw` for the predecessor, and dispatches
`ft_transfer(old_account.unstake_balance)` with the snapshot as callback
argument.  The returned pair is (state persisted at dispatch, snapshot
passed to `ft_withdraw_callback`); the transferred amount is the snapshot's
`unstake_balance`. -/
def withdraw (st : StakingContract) (epochHeight pred attachedDeposit : Nat) :
    Option (StakingContract × Account) :=
  if attachedDeposit = 1 then internal_withdraw st epochHeight pred else none

/-- `harvest` (`core_impl.rs` 72–99): requires exactly one attached yocto and
a strictly positive reward, and dispatches `ft_transfer(current_reward)`
without mutating any state.  The returned pair is (state at dispatch — the
unchanged pre-state, amount passed to `ft_transfer_callback`). -/
def harvest (st : StakingContract) (blockIndex pred attachedDeposit : Nat) :
    Option (StakingContract × Nat) :=
  if attachedDeposit = 1 then
    (lookupAcc st.accounts pred).bind fun account =>
    (internal_calculate_account_reward st blockIndex account).bind fun new_reward =>
    (checkedAdd128 account.pre_reward new_reward).bind fun current_reward =>
    if 0 < current_reward then some (st, current_reward) else none
  else none

/-- Outcome of the one outstanding external call, as reported to a
continuation (`env::promise_result(0)`). -/
inductive PromiseOutcome where
  | NotReady
  | Successful
  | Failed
deriving DecidableEq, Repr

/-- `ft_transfer_callback` (`core_impl.rs` 102–121), the harvest
continuation: asserts exactly one promise result; on success zeroes
`pre_reward`, moves the checkpoint, adds the amount to
`total_paid_reward_balance` and returns the amount; on failure panics
(`ERR_CALL_FAILED`), i.e. aborts with no mutation. -/
def ft_transfer_callback (st : StakingContract) (blockIndex resultsCount : Nat)
    (result : PromiseOutcome) (amount account_id : Nat) :
    Option (StakingContract × Nat) :=
  if resultsCount = 1 then
    match result with
    | .NotReady => none
    | .Successful =>
        (lookupAcc st.accounts account_id).bind fun account =>
        (checkedAdd128 st.total_paid_reward_balance amount).bind fun paid1 =>
        some ({ st with
                accounts := insertAcc st.accounts account_id
                  { account with
                    pre_reward := 0
                    last_block_balance_change := blockIndex }
                total_paid_reward_balance := paid1 },
              amount)
    | .Failed => none
  else none

/-- `ft_withdraw_callback` (`core_impl.rs` 124–137), the withdraw
continuation: asserts exactly one promise result; on success returns the
transferred amount without touching state; on failure re-inserts the
snapshot and returns 0. -/
def ft_withdraw_callback (st : StakingContract) (resultsCount : Nat)
    (result : PromiseOutcome) (account_id : Nat) (old_account : Account) :
    Option (StakingContract × Nat) :=
  if resultsCount = 1 then
    match result with
    | .NotReady => none
    | .Successful => some (st, old_account.unstake_balance)
    | .Failed =>
        some ({ st with accounts := insertAcc st.accounts account_id old_account },
              0)
  else none

/-- Top-level ledger operations for the invariant claims.  Each operation
carries the host-environment values of its own invocation. -/
inductive Op where
  | create (account_id blockIndex : Nat)
  | deposit (pred account_id amount blockIndex : Nat)
  | unstake (account_id amount blockIndex epochHeight timestamp : Nat)
deriving DecidableEq, Repr

/-- Apply one operation; an aborted invocation (`none`) leaves the state
unchanged, since host transactions are atomic. -/
def applyOp (st : StakingContract) : Op → StakingContract
  | .create account_id blockIndex => storage_deposit st blockIndex account_id
  | .deposit pred account_id amount blockIndex =>
      (internal_deposit_and_stake st pred blockIndex account_id amount).getD st
  | .unstake account_id amount blockIndex epochHeight timestamp =>
      (internal_unstake st blockIndex epochHeight timestamp account_id amount).getD st

/-- Apply a sequence of operations in order. -/
def applyOps (st : StakingContract) (ops : List Op) : StakingContract :=
  ops.foldl applyOp st

/-- An operation whose amount is strictly positive (account creation carries
no amount). -/
def posAmountOp : Op → Bool
  | .create _ _ => true
  | .deposit _ _ amount _ => 0 < amount
  | .unstake _ amount _ _ _ => 0 < amount

end StakingSpec

namespace StakingSpec

/-! ## Concrete states used by counterexamples and witnesses -/

/-- Failing input for the per-account reward computation (C1): the pool holds
30 staked in total; the stored account `2` itself staked only 10. -/
def c1_account : Account :=
  { stake_balance := 10, pre_stake_balance := 0, pre_reward := 0,
    last_block_balance_change := 0, unstake_balance := 0,
    unstake_start_timestamp := 0, unstake_available_epoch_height := 0 }

/-- The second staker of the C1 failing input, holding the other 20. -/
def c1_other_account : Account :=
  { stake_balance := 20, pre_stake_balance := 0, pre_reward := 0,
    last_block_balance_change := 0, unstake_balance := 0,
    unstake_start_timestamp := 0, unstake_available_epoch_height := 0 }

/-- The C1 failing state: rate 1/1 per block, two stakers (10 + 20 = 30). -/
def c1_state : StakingContract :=
  { owner_id := 0, ft_contract_id := 1,
    config := { reward_numerator := 1, reward_denumerator := 1, total_apr := 0 },
    total_stake_balance := 30, total_paid_reward_balance := 0, total_staker := 2,
    pre_reward := 0, last_block_balance_change := 0,
    accounts := [(2, c1_account), (3, c1_other_account)],
    paused := false, paused_in_block := 0 }

/-- Sample account with staked principal and a matured cooldown balance. -/
def sampleAccount : Account :=
  { stake_balance := 50, pre_stake_balance := 0, pre_reward := 3,
    last_block_balance_change := 4, unstake_balance := 7,
    unstake_start_timestamp := 2, unstake_available_epoch_height := 6 }

/-- Sample two-account state (account 2 is `sampleAccount`). -/
def sampleState : StakingContract :=
  { owner_id := 0, ft_contract_id := 1,
    config := { reward_numerator := 1, reward_denumerator := 10, total_apr := 0 },
    total_stake_balance := 80, total_paid_reward_balance := 0, total_staker := 2,
    pre_reward := 0, last_block_balance_change := 4,
    accounts := [(2, sampleAccount),
                 (3, { stake_balance := 30, pre_stake_balance := 0, pre_reward := 0,
                       last_block_balance_change := 4, unstake_balance := 0,
                       unstake_start_timestamp := 0,
                       unstake_available_epoch_height := 0 })],
    paused := false, paused_in_block := 0 }

/-- `sampleState` paused at block 9 (for the pause-freeze witness). -/
def pausedState : StakingContract :=
  { sampleState with paused := true, paused_in_block := 9 }

/-- C6 counterexample run: create account 2 and deposit amount 0 into it. -/
def c6_state : StakingContract :=
  applyOps (StakingContract.new 0 1 Config.default 0)
    [Op.create 2 0, Op.deposit 1 2 0 0]

/-- Positive-amount operation sequence for the C6 witness. -/
def c6w_ops : List Op :=
  [Op.create 2 0, Op.deposit 1 2 5 0, Op.unstake 2 5 1 1 0]

/-- C10 scenario, initial contract (default config: 715 / 100000000000). -/
def c10_state0 : StakingContract := StakingContract.new 0 1 Config.default 0

/-- C10 scenario after creating account 2 at block 0. -/
def c10_state1 : StakingContract := storage_deposit c10_state0 0 2

/-- C10 scenario after account 2 deposits 10_000_000_000_000 at block 0. -/
def c10_state2 : StakingContract :=
  (internal_deposit_and_stake c10_state1 1 0 2 10000000000000).getD c10_state0

/-- C10 scenario after the second deposit of 20_000_000_000_000 at block 10. -/
def c10_state3 : StakingContract :=
  (internal_deposit_and_stake c10_state2 1 10 2 20000000000000).getD c10_state0

/-- An account with the three cooldown fields cleared, as persisted by a
successful Withdraw dispatch (`internal.rs` 85–93). -/
def clearedCooldown (account : Account) : Account :=
  { account with
    unstake_balance := 0
    unstake_start_timestamp := 0
    unstake_available_epoch_height := 0 }

/-- The state persisted by a successful Withdraw dispatch: the caller's
account stored with cleared cooldown fields. -/
def withdrawDispatchState (st : StakingContract) (account_id : Nat)
    (account : Account) : StakingContract :=
  { st with accounts := insertAcc st.accounts account_id (clearedCooldown account) }

/-! ## Basic lemmas about the checked arithmetic and the account map -/

theorem checkedAdd128_eq_some {a b c : Nat} :
    checkedAdd128 a b = some c ↔ a + b < U128_LIMIT ∧ a + b = c := by
  unfold checkedAdd128
  split <;> simp_all

theorem checkedSub_eq_some {a b c : Nat} :
    checkedSub a b = some c ↔ b ≤ a ∧ a - b = c := by
  unfold checkedSub
  split <;> simp_all

theorem lookupAcc_insertAcc_self (l : List (Nat × Account)) (k : Nat) (a : Account) :
    lookupAcc (insertAcc l k a) k = some a := by
  induction l with
  | nil => simp [insertAcc, lookupAcc]
  | cons hd tl ih =>
      by_cases h : hd.1 = k
      · simp [insertAcc, lookupAcc, h]
      · simp [insertAcc, lookupAcc, h, ih]

theorem lookupAcc_insertAcc_ne (l : List (Nat × Account)) (k k' : Nat) (a : Account)
    (h : k ≠ k') : lookupAcc (insertAcc l k a) k' = lookupAcc l k' := by
  induction l with
  | nil => simp [insertAcc, lookupAcc, h]
  | cons hd tl ih =>
      by_cases hk : hd.1 = k
      · simp [insertAcc, lookupAcc, hk, h]
      · have hne : ¬k' = k := fun hh => h hh.symm
        by_cases hk' : hd.1 = k'
        · simp [insertAcc, lookupAcc, hk, hk', hne]
        · simp [insertAcc, lookupAcc, hk, hk', ih]

theorem sumStake_insertAcc (l : List (Nat × Account)) (k : Nat) (a a' : Account)
    (h : lookupAcc l k = some a) :
    sumStake (insertAcc l k a') + a.stake_balance = sumStake l + a'.stake_balance := by
  induction l with
  | nil => simp [lookupAcc] at h
  | cons hd tl ih =>
      by_cases hk : hd.1 = k
      · simp only [lookupAcc, hk, if_pos rfl] at h
        cases h
        simp only [insertAcc, hk, if_pos rfl, sumStake, List.foldr]
        omega
      · simp only [lookupAcc, hk, if_neg hk] at h
        have := ih h
        simp only [insertAcc, if_neg hk, sumStake, List.foldr] at *
        omega

theorem sumStake_insertAcc_new (l : List (Nat × Account)) (k : Nat) (a' : Account)
    (h : lookupAcc l k = none) :
    sumStake (insertAcc l k a') = sumStake l + a'.stake_balance := by
  induction l with
  | nil => simp [insertAcc, sumStake]
  | cons hd tl ih =>
      by_cases hk : hd.1 = k
      · simp [lookupAcc, hk] at h
      · simp only [lookupAcc, if_neg hk] at h
        have := ih h
        simp only [insertAcc, if_neg hk, sumStake, List.foldr] at *
        omega

theorem countPos_insertAcc (l : List (Nat × Account)) (k : Nat) (a a' : Account)
    (h : lookupAcc l k = some a) :
    countPos (insertAcc l k a') + posBit a = countPos l + posBit a' := by
  induction l with
  | nil => simp [lookupAcc] at h
  | cons hd tl ih =>
      by_cases hk : hd.1 = k
      · simp only [lookupAcc, hk, if_pos rfl] at h
        cases h
        simp only [insertAcc, hk, if_pos rfl, countPos, List.foldr]
        omega
      · simp only [lookupAcc, hk, if_neg hk] at h
        have := ih h
        simp only [insertAcc, if_neg hk, countPos, List.foldr] at *
        omega

theorem countPos_insertAcc_new (l : List (Nat × Account)) (k : Nat) (a' : Account)
    (h : lookupAcc l k = none) :
    countPos (insertAcc l k a') = countPos l + posBit a' := by
  induction l with
  | nil => simp [insertAcc, countPos]
  | cons hd tl ih =>
      by_cases hk : hd.1 = k
      · simp [lookupAcc, hk] at h
      · simp only [lookupAcc, if_neg hk] at h
        have := ih h
        simp only [insertAcc, if_neg hk, countPos, List.foldr] at *
        omega

end StakingSpec

namespace StakingSpec

/-! ## Inversion lemmas for the state-machine operations -/

theorem internal_deposit_and_stake_inv {st st' : StakingContract}
    {pred blockIndex account_id amount : Nat}
    (h : internal_deposit_and_stake st pred blockIndex account_id amount = some st') :
    ∃ account staker1 preReward1 poolPre1,
      lookupAcc st.accounts account_id = some account ∧
      (account.stake_balance = 0 → staker1 = st.total_staker + 1) ∧
      (account.stake_balance ≠ 0 → staker1 = st.total_staker) ∧
      st' = { st with
              total_staker := staker1
              accounts := insertAcc st.accounts account_id
                { account with
                  pre_stake_balance := account.stake_balance
                  pre_reward := preReward1
                  stake_balance := account.stake_balance + amount
                  last_block_balance_change := blockIndex }
              total_stake_balance := st.total_stake_balance + amount
              pre_reward := poolPre1
              last_block_balance_change := blockIndex } := by
  unfold internal_deposit_and_stake at h
  rcases hl : lookupAcc st.accounts account_id with _ | account
  · rw [hl] at h; exact absurd h (by simp)
  rw [hl] at h
  simp only [Option.some_bind] at h
  by_cases hp : st.paused = true
  · rw [if_pos hp] at h; exact absurd h (by simp)
  rw [if_neg hp] at h
  by_cases hft : pred = st.ft_contract_id
  swap
  · rw [if_neg hft] at h; exact absurd h (by simp)
  rw [if_pos hft] at h
  simp only [Option.bind_eq_some, Option.some_inj] at h
  obtain ⟨staker1, hs, r, hr, preReward1, hpr, stake1, hsb, rg, hg, total1, ht,
    poolPre1, hpp, hfin⟩ := h
  obtain ⟨-, hb2⟩ := checkedAdd128_eq_some.mp hsb
  obtain ⟨-, hb4⟩ := checkedAdd128_eq_some.mp ht
  subst hb2
  subst hb4
  subst hfin
  refine ⟨account, staker1, preReward1, poolPre1, rfl, ?_, ?_, rfl⟩
  · intro hz
    rw [if_pos hz] at hs
    exact (checkedAdd128_eq_some.mp hs).2.symm
  · intro hz
    rw [if_neg hz] at hs
    exact (Option.some_inj.mp hs).symm

theorem internal_unstake_inv {st st' : StakingContract}
    {blockIndex epochHeight timestamp account_id amount : Nat}
    (h : internal_unstake st blockIndex epochHeight timestamp account_id amount
          = some st') :
    ∃ account staker1 preReward1 unstakeBal1 avail1 poolPre1,
      lookupAcc st.accounts account_id = some account ∧
      amount ≤ account.stake_balance ∧
      amount ≤ st.total_stake_balance ∧
      (account.stake_balance - amount = 0 →
        1 ≤ st.total_staker ∧ staker1 = st.total_staker - 1) ∧
      (account.stake_balance - amount ≠ 0 → staker1 = st.total_staker) ∧
      st' = { st with
              total_staker := staker1
              accounts := insertAcc st.accounts account_id
                { stake_balance := account.stake_balance - amount
                  pre_stake_balance := account.stake_balance
                  pre_reward := preReward1
                  last_block_balance_change := blockIndex
                  unstake_balance := unstakeBal1
                  unstake_start_timestamp := timestamp
                  unstake_available_epoch_height := avail1 }
              total_stake_balance := st.total_stake_balance - amount
              pre_reward := poolPre1
              last_block_balance_change := blockIndex } := by
  unfold internal_unstake at h
  rcases hl : lookupAcc st.accounts account_id with _ | account
  · rw [hl] at h; exact absurd h (by simp)
  rw [hl] at h
  simp only [Option.some_bind] at h
  by_cases hle : amount ≤ account.stake_balance
  swap
  · rw [if_neg hle] at h; exact absurd h (by simp)
  rw [if_pos hle] at h
  simp only [Option.bind_eq_some, Option.some_inj] at h
  obtain ⟨r, hr, preReward1, hpr, unstakeBal1, hub, avail1, hav, staker1, hs,
    rg, hg, total1, ht, poolPre1, hpp, hfin⟩ := h
  obtain ⟨htle, hb4⟩ := checkedSub_eq_some.mp ht
  subst hb4
  subst hfin
  refine ⟨account, staker1, preReward1, unstakeBal1, avail1, poolPre1, rfl,
    hle, htle, ?_, ?_, rfl⟩
  · intro hz
    rw [if_pos hz] at hs
    obtain ⟨h1, h2⟩ := checkedSub_eq_some.mp hs
    exact ⟨h1, h2.symm⟩
  · intro hz
    rw [if_neg hz] at hs
    exact (Option.some_inj.mp hs).symm

end StakingSpec

namespace StakingSpec

/-! ## Conservation of total stake (C2) -/

theorem conservation_applyOp (st : StakingContract) (op : Op)
    (h : sumStake st.accounts = st.total_stake_balance) :
    sumStake (applyOp st op).accounts = (applyOp st op).total_stake_balance := by
  cases op with
  | create account_id blockIndex =>
      simp only [applyOp, storage_deposit]
      rcases hl : lookupAcc st.accounts account_id with _ | a
      · simp only [internal_create_account]
        rw [sumStake_insertAcc_new _ _ _ hl]
        simpa using h
      · exact h
  | deposit pred account_id amount blockIndex =>
      simp only [applyOp]
      rcases hd : internal_deposit_and_stake st pred blockIndex account_id amount
        with _ | st'
      · simpa using h
      · simp only [Option.getD_some]
        obtain ⟨account, staker1, preReward1, poolPre1, hl, -, -, rfl⟩ :=
          internal_deposit_and_stake_inv hd
        have hsum := sumStake_insertAcc st.accounts account_id account
          { account with
            pre_stake_balance := account.stake_balance
            pre_reward := preReward1
            stake_balance := account.stake_balance + amount
            last_block_balance_change := blockIndex } hl
        simp only [] at hsum ⊢
        omega
  | unstake account_id amount blockIndex epochHeight timestamp =>
      simp only [applyOp]
      rcases hu : internal_unstake st blockIndex epochHeight timestamp account_id amount
        with _ | st'
      · simpa using h
      · simp only [Option.getD_some]
        obtain ⟨account, staker1, preReward1, unstakeBal1, avail1, poolPre1,
          hl, hle, htle, -, -, rfl⟩ := internal_unstake_inv hu
        have hsum := sumStake_insertAcc st.accounts account_id account
          { stake_balance := account.stake_balance - amount
            pre_stake_balance := account.stake_balance
            pre_reward := preReward1
            last_block_balance_change := blockIndex
            unstake_balance := unstakeBal1
            unstake_start_timestamp := timestamp
            unstake_available_epoch_height := avail1 } hl
        simp only [] at hsum ⊢
        omega

theorem conservation_applyOps (st : StakingContract) (ops : List Op)
    (h : sumStake st.accounts = st.total_stake_balance) :
    sumStake (applyOps st ops).accounts = (applyOps st ops).total_stake_balance := by
  induction ops generalizing st with
  | nil => exact h
  | cons op ops ih => exact ih (applyOp st op) (conservation_applyOp st op h)

end StakingSpec

namespace StakingSpec

/-! ## Staker-count consistency for positive amounts (C6, amended) -/

theorem stakerCount_applyOp (st : StakingContract) (op : Op)
    (hpos : posAmountOp op = true)
    (h : st.total_staker = countPos st.accounts) :
    (applyOp st op).total_staker = countPos (applyOp st op).accounts := by
  cases op with
  | create account_id blockIndex =>
      simp only [applyOp, storage_deposit]
      rcases hl : lookupAcc st.accounts account_id with _ | a
      · simp only [internal_create_account]
        rw [countPos_insertAcc_new _ _ _ hl]
        simpa [posBit] using h
      · exact h
  | deposit pred account_id amount blockIndex =>
      simp only [posAmountOp, decide_eq_true_eq] at hpos
      simp only [applyOp]
      rcases hd : internal_deposit_and_stake st pred blockIndex account_id amount
        with _ | st'
      · simpa using h
      · simp only [Option.getD_some]
        obtain ⟨account, staker1, preReward1, poolPre1, hl, hz1, hz2, rfl⟩ :=
          internal_deposit_and_stake_inv hd
        have hcount := countPos_insertAcc st.accounts account_id account
          { account with
            pre_stake_balance := account.stake_balance
            pre_reward := preReward1
            stake_balance := account.stake_balance + amount
            last_block_balance_change := blockIndex } hl
        have hne : account.stake_balance + amount ≠ 0 := by omega
        have hb2 : posBit
            { account with
              pre_stake_balance := account.stake_balance
              pre_reward := preReward1
              stake_balance := account.stake_balance + amount
              last_block_balance_change := blockIndex } = 1 := by
          simp [posBit, hne]
        by_cases hz : account.stake_balance = 0
        · have hst := hz1 hz
          have hb1 : posBit account = 0 := by simp [posBit, hz]
          rw [hb1, hb2] at hcount
          simp only []
          omega
        · have hst := hz2 hz
          have hb1 : posBit account = 1 := by simp [posBit, hz]
          rw [hb1, hb2] at hcount
          simp only []
          omega
  | unstake account_id amount blockIndex epochHeight timestamp =>
      simp only [posAmountOp, decide_eq_true_eq] at hpos
      simp only [applyOp]
      rcases hu : internal_unstake st blockIndex epochHeight timestamp account_id amount
        with _ | st'
      · simpa using h
      · simp only [Option.getD_some]
        obtain ⟨account, staker1, preReward1, unstakeBal1, avail1, poolPre1,
          hl, hle, htle, hz1, hz2, rfl⟩ := internal_unstake_inv hu
        have hcount := countPos_insertAcc st.accounts account_id account
          { stake_balance := account.stake_balance - amount
            pre_stake_balance := account.stake_balance
            pre_reward := preReward1
            last_block_balance_change := blockIndex
            unstake_balance := unstakeBal1
            unstake_start_timestamp := timestamp
            unstake_available_epoch_height := avail1 } hl
        have hsz : account.stake_balance ≠ 0 := by omega
        have hb1 : posBit account = 1 := by simp [posBit, hsz]
        by_cases hz : account.stake_balance - amount = 0
        · obtain ⟨hge, hst⟩ := hz1 hz
          have hb2 : posBit
              { stake_balance := account.stake_balance - amount
                pre_stake_balance := account.stake_balance
                pre_reward := preReward1
                last_block_balance_change := blockIndex
                unstake_balance := unstakeBal1
                unstake_start_timestamp := timestamp
                unstake_available_epoch_height := avail1 } = 0 := by
            simp [posBit, hz]
          rw [hb1, hb2] at hcount
          simp only []
          omega
        · have hst := hz2 hz
          have hb2 : posBit
              { stake_balance := account.stake_balance - amount
                pre_stake_balance := account.stake_balance
                pre_reward := preReward1
                last_block_balance_change := blockIndex
                unstake_balance := unstakeBal1
                unstake_start_timestamp := timestamp
                unstake_available_epoch_height := avail1 } = 1 := by
            simp [posBit, hz]
          rw [hb1, hb2] at hcount
          simp only []
          omega

theorem stakerCount_applyOps (st : StakingContract) (ops : List Op)
    (hpos : ∀ op ∈ ops, posAmountOp op = true)
    (h : st.total_staker = countPos st.accounts) :
    (applyOps st ops).total_staker = countPos (applyOps st ops).accounts := by
  induction ops generalizing st with
  | nil => exact h
  | cons op ops ih =>
      exact ih (applyOp st op) (fun o ho => hpos o (List.mem_cons_of_mem _ ho))
        (stakerCount_applyOp st op (hpos op (List.mem_cons_self _ _)) h)

end StakingSpec

namespace StakingSpec

/-! ## Claim theorems -/

/-- C1 (code bug): the claim says the per-account pending-reward computation
returns `floor(stake_balance * numerator * (reference − checkpoint) / denominator)`
with `stake_balance` the account's **own** staked principal.  The code
(`internal.rs` line 107) multiplies `self.total_stake_balance` instead: at a
state where the pool total is 30 and the account's own stake is 10 (rate 1/1,
one elapsed block), the code returns 30 while the claimed formula gives 10. -/
theorem C1_account_reward_uses_pool_total :
    internal_calculate_account_reward c1_state 1 c1_account = some 30
    ∧ c1_account.stake_balance * c1_state.config.reward_numerator *
        (1 - c1_account.last_block_balance_change) /
        c1_state.config.reward_denumerator = 10 := by
  constructor
  · decide
  · decide

/-- C2: for every sequence of account-creation, deposit-and-stake and unstake
operations applied from the initial contract state, the pool's
`total_stake_balance` equals the sum of `stake_balance` over all stored
accounts.  Quantifying over all sequences covers every observable point:
the state before an operation is the state after the preceding prefix, and
an aborted invocation leaves the state unchanged. -/
theorem C2_total_stake_conservation (owner_id ft_contract_id : Nat)
    (config : Config) (blockIndex : Nat) (ops : List Op) :
    sumStake (applyOps (StakingContract.new owner_id ft_contract_id config blockIndex)
        ops).accounts
      = (applyOps (StakingContract.new owner_id ft_contract_id config blockIndex)
        ops).total_stake_balance :=
  conservation_applyOps _ ops rfl

/-- C6 counterexample: the claim includes deposit calls with amount 0.  From
the initial state, creating account 2 and then depositing amount 0 leaves
every `stake_balance` at zero yet increments `total_staker` to 1
(`internal.rs` lines 22–24 test the prior balance, not the amount), so
`total_staker = count(stake_balance > 0)` fails. -/
theorem C6_counterexample_zero_amount_deposit :
    c6_state.total_staker = 1 ∧ countPos c6_state.accounts = 0 := by
  constructor
  · decide
  · decide

/-- C6 (amended): for every sequence of account-creation, deposit-and-stake
and unstake operations with **strictly positive amounts** applied from the
initial contract state, the pool's `total_staker` equals the number of
stored accounts with nonzero `stake_balance`. -/
theorem C6_staker_count_positive_amounts (owner_id ft_contract_id : Nat)
    (config : Config) (blockIndex : Nat) (ops : List Op)
    (hpos : ∀ op ∈ ops, posAmountOp op = true) :
    (applyOps (StakingContract.new owner_id ft_contract_id config blockIndex)
        ops).total_staker
      = countPos (applyOps (StakingContract.new owner_id ft_contract_id config
        blockIndex) ops).accounts :=
  stakerCount_applyOps _ ops hpos rfl

/-- Witness for C6 (amended): a concrete positive-amount run (create,
deposit 5, unstake 5) in which the staker count matches. -/
theorem C6_staker_count_witness :
    (∀ op ∈ c6w_ops, posAmountOp op = true)
    ∧ (applyOps (StakingContract.new 0 1 Config.default 0) c6w_ops).total_staker
        = countPos (applyOps (StakingContract.new 0 1 Config.default 0)
          c6w_ops).accounts :=
  ⟨by decide, C6_staker_count_positive_amounts 0 1 Config.default 0 c6w_ops
    (by decide)⟩

/-- C7: while the pool is paused, both reward computations use
`paused_in_block` as the reference block, so the reported pending reward of
any account not checkpointed since pausing is the same at every block
height. -/
theorem C7_pause_freeze (st : StakingContract) (account : Account)
    (b1 b2 account_id : Nat) (h : st.paused = true) :
    internal_calculate_account_reward st b1 account
        = internal_calculate_account_reward st b2 account
    ∧ internal_calculate_global_reward st b1
        = internal_calculate_global_reward st b2
    ∧ get_account_reward st b1 account_id = get_account_reward st b2 account_id
    ∧ internal_calculate_account_reward st b1 account
        = (checkedSub st.paused_in_block account.last_block_balance_change).bind
            (accrueRaw st.total_stake_balance st.config.reward_numerator
              st.config.reward_denumerator) := by
  unfold get_account_reward internal_calculate_account_reward
    internal_calculate_global_reward
  rw [h]
  simp

/-- Witness for C7: the paused sample state reports the same account reward
at blocks 12 and 30. -/
theorem C7_pause_freeze_witness :
    pausedState.paused = true
    ∧ (internal_calculate_account_reward pausedState 12 sampleAccount
        = internal_calculate_account_reward pausedState 30 sampleAccount
      ∧ internal_calculate_global_reward pausedState 12
          = internal_calculate_global_reward pausedState 30
      ∧ get_account_reward pausedState 12 2 = get_account_reward pausedState 30 2
      ∧ internal_calculate_account_reward pausedState 12 sampleAccount
          = (checkedSub pausedState.paused_in_block
              sampleAccount.last_block_balance_change).bind
              (accrueRaw pausedState.total_stake_balance
                pausedState.config.reward_numerator
                pausedState.config.reward_denumerator)) :=
  ⟨by decide, C7_pause_freeze pausedState sampleAccount 12 30 2 (by decide)⟩

/-- C10 counterexample: with the default config (numerator 715, denominator
100000000000), a single account that deposited 10_000_000_000_000 at block 0
has pending reward `floor(10^13 * 715 * 10 / 10^11) = 715000` at block 10 —
not 715 as the claim states (the spec example is off by a factor of 1000);
likewise the second deposit at block 10 records `pre_reward = 715000`. -/
theorem C10_counterexample_reward_is_715000 :
    get_account_reward c10_state2 10 2 = some 715000
    ∧ (715000 ≠ 715)
    ∧ internal_deposit_and_stake c10_state2 1 10 2 20000000000000
        = some c10_state3
    ∧ lookupAcc c10_state3.accounts 2 = some
        { stake_balance := 30000000000000, pre_stake_balance := 10000000000000,
          pre_reward := 715000, last_block_balance_change := 10,
          unstake_balance := 0, unstake_start_timestamp := 0,
          unstake_available_epoch_height := 0 } := by
  refine ⟨by decide, by decide, by decide, by decide⟩

/-- C10 (amended): the concrete scenario with 715000 in place of 715: at
block 10 the pending reward is 715000, and the second deposit of
20_000_000_000_000 at block 10 leaves `pre_reward = 715000`,
`pre_stake_balance = 10_000_000_000_000`,
`stake_balance = 30_000_000_000_000` and checkpoint height 10. -/
theorem C10_amended_scenario :
    get_account_reward c10_state2 10 2 = some 715000
    ∧ internal_deposit_and_stake c10_state2 1 10 2 20000000000000
        = some c10_state3
    ∧ lookupAcc c10_state3.accounts 2 = some
        { stake_balance := 30000000000000, pre_stake_balance := 10000000000000,
          pre_reward := 715000, last_block_balance_change := 10,
          unstake_balance := 0, unstake_start_timestamp := 0,
          unstake_available_epoch_height := 0 }
    ∧ c10_state3.total_stake_balance = 30000000000000
    ∧ c10_state3.last_block_balance_change = 10 := by
  refine ⟨by decide, by decide, by decide, by decide, by decide⟩

end StakingSpec

namespace StakingSpec

/-- C3: Withdraw aborts with no state change exactly when the caller's
`unstake_balance` is zero or the current epoch is below
`unstake_available_epoch_height`; otherwise it succeeds, clearing the three
cooldown fields of the stored account and leaving every other field intact,
and a second Withdraw on the post-dispatch state fails at every epoch. -/
theorem C3_withdraw_gating (st : StakingContract) (epochHeight account_id : Nat)
    (account : Account)
    (h : lookupAcc st.accounts account_id = some account) :
    (internal_withdraw st epochHeight account_id = none ↔
      (account.unstake_balance = 0 ∨
        epochHeight < account.unstake_available_epoch_height))
    ∧ (∀ st1 old,
        internal_withdraw st epochHeight account_id = some (st1, old) →
          old = account
          ∧ st1 = withdrawDispatchState st account_id account
          ∧ ∀ epoch2, internal_withdraw st1 epoch2 account_id = none) := by
  have hmain : internal_withdraw st epochHeight account_id =
      if 0 < account.unstake_balance then
        if account.unstake_available_epoch_height ≤ epochHeight then
          some (withdrawDispatchState st account_id account, account)
        else none
      else none := by
    unfold internal_withdraw withdrawDispatchState clearedCooldown
    rw [h]
    rfl
  constructor
  · rw [hmain]
    by_cases h1 : 0 < account.unstake_balance
    · by_cases h2 : account.unstake_available_epoch_height ≤ epochHeight
      · rw [if_pos h1, if_pos h2]
        constructor
        · intro hx; exact absurd hx (by simp)
        · intro hx; exact absurd hx (by omega)
      · rw [if_pos h1, if_neg h2]
        constructor
        · intro _; right; omega
        · intro _; rfl
    · rw [if_neg h1]
      constructor
      · intro _; left; omega
      · intro _; rfl
  · intro st1 old hw
    rw [hmain] at hw
    by_cases h1 : 0 < account.unstake_balance
    · by_cases h2 : account.unstake_available_epoch_height ≤ epochHeight
      · rw [if_pos h1, if_pos h2] at hw
        simp only [Option.some_inj, Prod.mk.injEq] at hw
        obtain ⟨hst1, hold⟩ := hw
        subst hst1
        subst hold
        refine ⟨rfl, rfl, ?_⟩
        intro epoch2
        simp [internal_withdraw, withdrawDispatchState, lookupAcc_insertAcc_self,
          clearedCooldown]
      · rw [if_pos h1, if_neg h2] at hw
        exact absurd hw (by simp)
    · rw [if_neg h1] at hw
      exact absurd hw (by simp)

/-- Witness for C3 at the sample state: account 2 has `unstake_balance = 7`
and cooldown epoch 6, so Withdraw at epoch 6 is in the success regime. -/
theorem C3_withdraw_gating_witness :
    lookupAcc sampleState.accounts 2 = some sampleAccount
    ∧ ((internal_withdraw sampleState 6 2 = none ↔
        (sampleAccount.unstake_balance = 0 ∨
          6 < sampleAccount.unstake_available_epoch_height))
      ∧ (∀ st1 old,
          internal_withdraw sampleState 6 2 = some (st1, old) →
            old = sampleAccount
            ∧ st1 = withdrawDispatchState sampleState 2 sampleAccount
            ∧ ∀ epoch2, internal_withdraw st1 epoch2 2 = none)) :=
  ⟨by decide, C3_withdraw_gating sampleState 6 2 sampleAccount (by decide)⟩

/-- C4: absent interleaving, the Withdraw continuation restores the exact
pre-dispatch account record on a failed transfer and returns 0, and on a
successful transfer leaves the dispatched state untouched and returns the
transferred unstake amount (the snapshot's `unstake_balance`). -/
theorem C4_withdraw_rollback (st st1 : StakingContract)
    (epochHeight account_id : Nat) (account old : Account)
    (h : lookupAcc st.accounts account_id = some account)
    (hw : internal_withdraw st epochHeight account_id = some (st1, old)) :
    old = account
    ∧ ft_withdraw_callback st1 1 .Failed account_id old
        = some ({ st1 with accounts := insertAcc st1.accounts account_id account }, 0)
    ∧ (∀ st2 returned,
        ft_withdraw_callback st1 1 .Failed account_id old = some (st2, returned) →
          lookupAcc st2.accounts account_id = some account ∧ returned = 0)
    ∧ ft_withdraw_callback st1 1 .Successful account_id old
        = some (st1, account.unstake_balance) := by
  have hold : old = account := by
    unfold internal_withdraw at hw
    rw [h] at hw
    simp only [Option.some_bind] at hw
    by_cases h1 : 0 < account.unstake_balance
    · rw [if_pos h1] at hw
      by_cases h2 : account.unstake_available_epoch_height ≤ epochHeight
      · rw [if_pos h2] at hw
        simp only [Option.some_inj, Prod.mk.injEq] at hw
        exact hw.2.symm
      · rw [if_neg h2] at hw
        exact absurd hw (by simp)
    · rw [if_neg h1] at hw
      exact absurd hw (by simp)
  subst hold
  refine ⟨rfl, by simp [ft_withdraw_callback], ?_, by simp [ft_withdraw_callback]⟩
  intro st2 returned hcb
  simp only [ft_withdraw_callback, if_pos rfl, if_true, Option.some_inj, Prod.mk.injEq] at hcb
  obtain ⟨hst2, hret⟩ := hcb
  subst hst2
  subst hret
  exact ⟨by simp [lookupAcc_insertAcc_self], rfl⟩

/-- Witness for C4: run the Withdraw of the C3 witness, then both
continuation outcomes. -/
theorem C4_withdraw_rollback_witness :
    (lookupAcc sampleState.accounts 2 = some sampleAccount
      ∧ internal_withdraw sampleState 6 2
          = some (withdrawDispatchState sampleState 2 sampleAccount, sampleAccount))
    ∧ (sampleAccount = sampleAccount
      ∧ ft_withdraw_callback (withdrawDispatchState sampleState 2 sampleAccount)
          1 .Failed 2 sampleAccount
          = some ({ withdrawDispatchState sampleState 2 sampleAccount with
                    accounts := insertAcc
                      (withdrawDispatchState sampleState 2 sampleAccount).accounts
                      2 sampleAccount }, 0)
      ∧ (∀ st2 returned,
          ft_withdraw_callback (withdrawDispatchState sampleState 2 sampleAccount)
            1 .Failed 2 sampleAccount = some (st2, returned) →
            lookupAcc st2.accounts 2 = some sampleAccount ∧ returned = 0)
      ∧ ft_withdraw_callback (withdrawDispatchState sampleState 2 sampleAccount)
          1 .Successful 2 sampleAccount
          = some (withdrawDispatchState sampleState 2 sampleAccount,
                  sampleAccount.unstake_balance)) :=
  ⟨⟨by decide, by decide⟩,
    C4_withdraw_rollback sampleState _ 6 2 sampleAccount sampleAccount
      (by decide) (by decide)⟩

end StakingSpec

namespace StakingSpec

/-- Changing only the stored accounts and the staker count does not affect
the pool-level reward computation (it reads the pool totals and checkpoint
only). -/
theorem internal_calculate_global_reward_congr (st : StakingContract)
    (l : List (Nat × Account)) (staker1 blockIndex : Nat) :
    internal_calculate_global_reward
        { st with accounts := l, total_staker := staker1 } blockIndex
      = internal_calculate_global_reward st blockIndex := rfl

/-- C5: Harvest aborts unless `pre_reward` plus the newly accrued reward is
strictly positive, and dispatches the transfer from an unmutated state (the
dispatched state is exactly the pre-state); the success continuation zeroes
`pre_reward`, moves the account checkpoint to the continuation's block,
adds the amount to `total_paid_reward_balance`, and changes nothing else. -/
theorem C5_harvest_pessimistic (st : StakingContract)
    (blockIndex cbBlockIndex pred : Nat) (account : Account) (r : Nat)
    (h : lookupAcc st.accounts pred = some account)
    (hr : internal_calculate_account_reward st blockIndex account = some r)
    (hadd : account.pre_reward + r < U128_LIMIT)
    (hpaid : st.total_paid_reward_balance + (account.pre_reward + r) < U128_LIMIT) :
    harvest st blockIndex pred 1
      = (if 0 < account.pre_reward + r then some (st, account.pre_reward + r)
         else none)
    ∧ ft_transfer_callback st cbBlockIndex 1 .Successful (account.pre_reward + r)
        pred
      = some ({ st with
                accounts := insertAcc st.accounts pred
                  { account with
                    pre_reward := 0
                    last_block_balance_change := cbBlockIndex }
                total_paid_reward_balance :=
                  st.total_paid_reward_balance + (account.pre_reward + r) },
              account.pre_reward + r) := by
  have hca : checkedAdd128 account.pre_reward r = some (account.pre_reward + r) := by
    unfold checkedAdd128
    rw [if_pos hadd]
  have hcp : checkedAdd128 st.total_paid_reward_balance (account.pre_reward + r)
      = some (st.total_paid_reward_balance + (account.pre_reward + r)) := by
    unfold checkedAdd128
    rw [if_pos hpaid]
  constructor
  · unfold harvest
    rw [if_pos rfl, h]
    simp only [Option.some_bind]
    rw [hr]
    simp only [Option.some_bind]
    rw [hca]
    simp only [Option.some_bind]
  · unfold ft_transfer_callback
    rw [if_pos rfl]
    simp only []
    rw [h]
    simp only [Option.some_bind]
    rw [hcp]
    simp only [Option.some_bind]

/-- Witness for C5 at the sample state: account 2 has `pre_reward = 3` and
accrues 32 more by block 8; the callback finalizes at block 9. -/
theorem C5_harvest_pessimistic_witness :
    (lookupAcc sampleState.accounts 2 = some sampleAccount
      ∧ internal_calculate_account_reward sampleState 8 sampleAccount = some 32
      ∧ sampleAccount.pre_reward + 32 < U128_LIMIT
      ∧ sampleState.total_paid_reward_balance + (sampleAccount.pre_reward + 32)
          < U128_LIMIT)
    ∧ (harvest sampleState 8 2 1
        = (if 0 < sampleAccount.pre_reward + 32
           then some (sampleState, sampleAccount.pre_reward + 32) else none)
      ∧ ft_transfer_callback sampleState 9 1 .Successful
          (sampleAccount.pre_reward + 32) 2
        = some ({ sampleState with
                  accounts := insertAcc sampleState.accounts 2
                    { sampleAccount with
                      pre_reward := 0
                      last_block_balance_change := 9 }
                  total_paid_reward_balance :=
                    sampleState.total_paid_reward_balance +
                      (sampleAccount.pre_reward + 32) },
                sampleAccount.pre_reward + 32)) :=
  ⟨⟨by decide, by decide, by decide, by decide⟩,
    C5_harvest_pessimistic sampleState 8 9 2 sampleAccount 32
      (by decide) (by decide) (by decide) (by decide)⟩

/-- C8: the accrual arithmetic is overflow-safe: the product
`total_stake_balance * numerator * diff` of a well-formed state (u128
balance, u32 numerator, u64 block heights) always fits the 256-bit
intermediate (it is below `2^224`); a reference block behind the checkpoint
aborts the invocation (`none`, never a wrapped value); and when the final
quotient does not fit in u128 the invocation aborts instead of saturating. -/
theorem C8_accrual_overflow_safety (st : StakingContract) (account : Account)
    (blockIndex : Nat)
    (hbal : st.total_stake_balance < U128_LIMIT)
    (hnum : st.config.reward_numerator < 2 ^ 32)
    (hblock : blockIndex < 2 ^ 64)
    (hpause : st.paused_in_block < 2 ^ 64) :
    ((if st.paused then st.paused_in_block else blockIndex)
        < account.last_block_balance_change →
      internal_calculate_account_reward st blockIndex account = none)
    ∧ (∀ diff,
        checkedSub (if st.paused then st.paused_in_block else blockIndex)
            account.last_block_balance_change = some diff →
          st.total_stake_balance * st.config.reward_numerator * diff < U256_LIMIT
          ∧ (st.config.reward_denumerator ≠ 0 →
              internal_calculate_account_reward st blockIndex account
                = if st.total_stake_balance * st.config.reward_numerator * diff /
                      st.config.reward_denumerator < U128_LIMIT
                  then some (st.total_stake_balance * st.config.reward_numerator *
                      diff / st.config.reward_denumerator)
                  else none)) := by
  constructor
  · intro hlt
    unfold internal_calculate_account_reward
    have hnone : checkedSub
        (if st.paused then st.paused_in_block else blockIndex)
        account.last_block_balance_change = none := by
      unfold checkedSub
      rw [if_neg (by omega)]
    rw [hnone]
    rfl
  · intro diff hdiff
    obtain ⟨hle, hdiffeq⟩ := checkedSub_eq_some.mp hdiff
    have hlast : (if st.paused then st.paused_in_block else blockIndex) < 2 ^ 64 := by
      by_cases hp : st.paused = true
      · rw [if_pos hp]; exact hpause
      · rw [if_neg hp]; exact hblock
    have hdiff64 : diff < 2 ^ 64 := by omega
    have hU128 : U128_LIMIT = 2 ^ 128 := rfl
    have hmul1 : st.total_stake_balance * st.config.reward_numerator
        ≤ (2 ^ 128 - 1) * (2 ^ 32 - 1) :=
      Nat.mul_le_mul (by omega) (by omega)
    have hmul2 : st.total_stake_balance * st.config.reward_numerator * diff
        ≤ (2 ^ 128 - 1) * (2 ^ 32 - 1) * (2 ^ 64 - 1) :=
      Nat.mul_le_mul hmul1 (by omega)
    have hlt1 : st.total_stake_balance * st.config.reward_numerator < U256_LIMIT :=
      lt_of_le_of_lt hmul1 (by norm_num [U256_LIMIT])
    have hlt2 : st.total_stake_balance * st.config.reward_numerator * diff
        < U256_LIMIT :=
      lt_of_le_of_lt hmul2 (by norm_num [U256_LIMIT])
    refine ⟨hlt2, ?_⟩
    intro hden
    unfold internal_calculate_account_reward
    rw [hdiff]
    simp only [Option.some_bind]
    unfold accrueRaw
    rw [if_neg (not_le.mpr hlt1), if_neg (not_le.mpr hlt2), if_neg hden]
    by_cases hq : st.total_stake_balance * st.config.reward_numerator * diff /
        st.config.reward_denumerator < U128_LIMIT
    · rw [if_neg (not_le.mpr hq), if_pos hq]
    · rw [if_pos (not_lt.mp hq), if_neg hq]

/-- Witness for C8 at the sample state (all machine-width bounds hold), with
the elapsed-diff branch instantiated by the actual subtraction result. -/
theorem C8_accrual_overflow_safety_witness :
    (sampleState.total_stake_balance < U128_LIMIT
      ∧ sampleState.config.reward_numerator < 2 ^ 32
      ∧ (8 : Nat) < 2 ^ 64
      ∧ sampleState.paused_in_block < 2 ^ 64)
    ∧ (((if sampleState.paused then sampleState.paused_in_block else 8)
          < sampleAccount.last_block_balance_change →
        internal_calculate_account_reward sampleState 8 sampleAccount = none)
      ∧ (∀ diff,
          checkedSub (if sampleState.paused then sampleState.paused_in_block else 8)
              sampleAccount.last_block_balance_change = some diff →
            sampleState.total_stake_balance * sampleState.config.reward_numerator *
                diff < U256_LIMIT
            ∧ (sampleState.config.reward_denumerator ≠ 0 →
                internal_calculate_account_reward sampleState 8 sampleAccount
                  = if sampleState.total_stake_balance *
                        sampleState.config.reward_numerator * diff /
                        sampleState.config.reward_denumerator < U128_LIMIT
                    then some (sampleState.total_stake_balance *
                        sampleState.config.reward_numerator * diff /
                        sampleState.config.reward_denumerator)
                    else none))) :=
  ⟨⟨by decide, by decide, by decide, by decide⟩,
    C8_accrual_overflow_safety sampleState sampleAccount 8
      (by decide) (by decide) (by decide) (by decide)⟩

end StakingSpec

namespace StakingSpec

/-- C9: under its preconditions (the account record exists, the pool is not
paused, the caller is the configured transfer service), Deposit-and-stake
adds the pending accrual to `pre_reward`, snapshots `pre_stake_balance`,
adds the amount to `stake_balance` and to `total_stake_balance`, moves the
account and pool checkpoints to the current block, crystallizes the pool
accrual into the pool-level `pre_reward`, increments `total_staker` exactly
when the prior stake was zero, and dispatches no external call
(`ft_on_transfer` returns the unused amount 0 as a plain value). -/
theorem C9_deposit_effect (st : StakingContract)
    (blockIndex account_id amount : Nat) (account : Account) (r rg : Nat)
    (hacc : lookupAcc st.accounts account_id = some account)
    (hpaused : st.paused = false)
    (hr : internal_calculate_account_reward st blockIndex account = some r)
    (hrg : internal_calculate_global_reward st blockIndex = some rg)
    (h1 : account.pre_reward + r < U128_LIMIT)
    (h2 : account.stake_balance + amount < U128_LIMIT)
    (h3 : st.total_stake_balance + amount < U128_LIMIT)
    (h4 : st.pre_reward + rg < U128_LIMIT)
    (h5 : st.total_staker + 1 < U128_LIMIT) :
    internal_deposit_and_stake st st.ft_contract_id blockIndex account_id amount
      = some { st with
          total_staker := if account.stake_balance = 0 then st.total_staker + 1
                          else st.total_staker
          accounts := insertAcc st.accounts account_id
            { account with
              pre_stake_balance := account.stake_balance
              pre_reward := account.pre_reward + r
              stake_balance := account.stake_balance + amount
              last_block_balance_change := blockIndex }
          total_stake_balance := st.total_stake_balance + amount
          pre_reward := st.pre_reward + rg
          last_block_balance_change := blockIndex }
    ∧ (∀ st1,
        internal_deposit_and_stake st st.ft_contract_id blockIndex account_id
            amount = some st1 →
          ft_on_transfer st st.ft_contract_id blockIndex account_id amount
            = some (st1, 0)) := by
  have hs : (if account.stake_balance = 0 then checkedAdd128 st.total_staker 1
      else some st.total_staker)
      = some (if account.stake_balance = 0 then st.total_staker + 1
              else st.total_staker) := by
    by_cases hz : account.stake_balance = 0
    · rw [if_pos hz, if_pos hz]
      unfold checkedAdd128
      rw [if_pos h5]
    · rw [if_neg hz, if_neg hz]
  have hprAdd : checkedAdd128 account.pre_reward r
      = some (account.pre_reward + r) := by
    unfold checkedAdd128
    rw [if_pos h1]
  have hsbAdd : checkedAdd128 account.stake_balance amount
      = some (account.stake_balance + amount) := by
    unfold checkedAdd128
    rw [if_pos h2]
  have htAdd : checkedAdd128 st.total_stake_balance amount
      = some (st.total_stake_balance + amount) := by
    unfold checkedAdd128
    rw [if_pos h3]
  have hppAdd : checkedAdd128 st.pre_reward rg
      = some (st.pre_reward + rg) := by
    unfold checkedAdd128
    rw [if_pos h4]
  constructor
  · unfold internal_deposit_and_stake
    rw [hacc]
    simp only [Option.some_bind]
    have hp2 : ¬st.paused = true := by
      rw [hpaused]
      exact Bool.false_ne_true
    rw [if_neg hp2, if_true, hs]
    simp only [Option.some_bind]
    rw [hr]
    simp only [Option.some_bind]
    rw [hprAdd]
    simp only [Option.some_bind]
    rw [hsbAdd]
    simp only [Option.some_bind]
    rw [internal_calculate_global_reward_congr, hrg]
    simp only [Option.some_bind]
    rw [htAdd]
    simp only [Option.some_bind]
    rw [hppAdd]
    simp only [Option.some_bind]
  · intro st1 hst1
    unfold ft_on_transfer
    rw [hst1]
    rfl

end StakingSpec

namespace StakingSpec

/-- Witness for C9 at the sample state: account 2 (stake 50, pre-reward 3)
deposits 20 more at block 8, accruing 32 for the account and 32 for the
pool. -/
theorem C9_deposit_effect_witness :
    (lookupAcc sampleState.accounts 2 = some sampleAccount
      ∧ sampleState.paused = false
      ∧ internal_calculate_account_reward sampleState 8 sampleAccount = some 32
      ∧ internal_calculate_global_reward sampleState 8 = some 32)
    ∧ (internal_deposit_and_stake sampleState sampleState.ft_contract_id 8 2 20
        = some { sampleState with
            total_staker := if sampleAccount.stake_balance = 0
                            then sampleState.total_staker + 1
                            else sampleState.total_staker
            accounts := insertAcc sampleState.accounts 2
              { sampleAccount with
                pre_stake_balance := sampleAccount.stake_balance
                pre_reward := sampleAccount.pre_reward + 32
                stake_balance := sampleAccount.stake_balance + 20
                last_block_balance_change := 8 }
            total_stake_balance := sampleState.total_stake_balance + 20
            pre_reward := sampleState.pre_reward + 32
            last_block_balance_change := 8 }
      ∧ (∀ st1,
          internal_deposit_and_stake sampleState sampleState.ft_contract_id 8 2 20
              = some st1 →
            ft_on_transfer sampleState sampleState.ft_contract_id 8 2 20
              = some (st1, 0))) :=
  ⟨⟨by decide, by decide, by decide, by decide⟩,
    C9_deposit_effect sampleState 8 2 20 sampleAccount 32 32
      (by decide) (by decide) (by decide) (by decide) (by decide) (by decide)
      (by decide) (by decide) (by decide)⟩

end StakingSpec
